import Mathlib

/-!
# complex-pipelines, part 5: the batching COPY pipeline

A shallow embedding of `src/part5/main.go` (the cursor `copyFromSource`, which is the
same code in `src/part2/main.go`, and the accumulator `batcher.Copy`), followed by the
properties proved about it.

Conventions of the embedding.

* A Go `error` is a `GoError`: `none` is `nil`, `some msg` is a non-nil error.
* A blocking `select` is a function of what the select yields: the caller of the
  embedded function supplies the outcome (`Delivery` for the cursor, `Event` for the
  accumulator loop).
* `conn.CopyFrom` belongs to the pgx library. It is taken as a parameter: the field
  `conn` of `batcher` gives, for the k-th call, the result pgx returns when it has pulled
  its cursor to the end, and the event `Event.copyFromFailed` is a call that returns an
  error earlier than that.
* `size` and `index` are `int64` in the source. `parseFlags` (line 373) replaces a
  `size <= 0` by 100000, and `index` stays within `0 .. size`, so no `int64` operation of
  the loop wraps; both are natural numbers here and the theorems that depend on the
  counter assume `1 ≤ size`.
-/

namespace Part5

/-- Go `error`: `none` is `nil`. -/
abbrev GoError := Option String

/-- The record `name` of lines 179-186. -/
structure name where
  NConst : String
  PrimaryName : String
  BirthYear : String
  DeathYear : String
  PrimaryProfessions : List String
  KnownForTitles : List String
deriving DecidableEq, Repr, Inhabited

/-- The two dynamic types stored in the `[]interface{}` that `Values` builds. -/
inductive Value where
  | str (s : String)
  | strs (l : List String)
deriving DecidableEq, Repr

/-- Lines 188-199: the six column values of a record, in column order. -/
def name.Values (n : name) : List Value :=
  [Value.str n.NConst, Value.str n.PrimaryName, Value.str n.BirthYear, Value.str n.DeathYear,
   Value.strs n.PrimaryProfessions, Value.strs n.KnownForTitles]

/-- What the `select` of lines 229-232 yields. -/
inductive Delivery where
  /-- The case `c.current, open = <-c.namesC` with a record: `open` is true. -/
  | name (n : name)
  /-- The case `c.current, open = <-c.namesC` on a closed channel: zero record, `open` false. -/
  | namesClosed
  /-- The case `c.err = <-c.errorC`: an explicit error, or `nil` when `errorC` is closed. -/
  | error (e : GoError)
deriving DecidableEq, Repr

/-- The cursor of lines 203-209, without its two channels (their deliveries are the
`Delivery` argument of `Next`). -/
structure copyFromSource where
  err : GoError
  closed : Bool
  current : name
deriving DecidableEq, Repr

/-- Lines 211-216: every field has its zero value. -/
def newCopyFromSource : copyFromSource :=
  { err := none, closed := false, current := default }

/-- Lines 218-220. -/
def copyFromSource.Err (c : copyFromSource) : GoError :=
  c.err

/-- Lines 222-244. A closed cursor returns `false` without reaching the select, so `d` is
not received in that case. -/
def copyFromSource.Next (c : copyFromSource) (d : Delivery) : copyFromSource × Bool :=
  if c.closed then (c, false)
  else
    let r : copyFromSource × Bool :=
      match d with
      | Delivery.name n => ({ c with current := n }, true)
      | Delivery.namesClosed => ({ c with current := default }, false)
      | Delivery.error e => ({ c with err := e }, false)
    let c1 := r.1
    let isOpen := r.2
    if !isOpen then ({ c1 with closed := true }, false)
    else if c1.err ≠ none then (c1, false)
    else (c1, true)

/-- Lines 246-248. -/
def copyFromSource.Values (c : copyFromSource) : List Value × GoError :=
  (c.current.Values, none)

/-- The three states of the cursor: `Open` until a `Next` call closes it, then `Failed`
when it holds an error and `Exhausted` when it does not. -/
inductive CursorState where
  | Open
  | Exhausted
  | Failed
deriving DecidableEq, Repr

/-- The state a cursor is in, read off its fields `closed` and `err`. -/
def copyFromSource.state (c : copyFromSource) : CursorState :=
  if !c.closed then CursorState.Open
  else if c.err = none then CursorState.Exhausted
  else CursorState.Failed

/-- A sequence of `Next` calls on one cursor; `ds` gives, call by call, what the select
of that call would yield. -/
def copyFromSource.NextAll (c : copyFromSource) (ds : List Delivery) : copyFromSource :=
  ds.foldl (fun c d => (c.Next d).1) c

/-- The deliveries that the calls of `NextAll` really received: a call on a closed cursor
returns before its select and receives nothing. -/
def copyFromSource.received (c : copyFromSource) : List Delivery → List Delivery
  | [] => []
  | d :: ds => if c.closed then (c.Next d).1.received ds else d :: (c.Next d).1.received ds

/-- Lines 252-255. `conn k` is the result of the k-th `conn.CopyFrom` call (counted from 0)
when that call pulls its cursor until `Next` returns false and the cursor holds no error:
`none` when the rows are accepted, `some e` when the write fails. -/
structure batcher where
  conn : Nat → GoError
  size : Nat

/-- Lines 257-262. -/
def newBatcher (conn : Nat → GoError) (size : Nat) : batcher :=
  { conn := conn, size := size }

/-- Lines 363-382, the `size` flag: a value that is not positive is replaced by 100000. -/
def parseFlags (size : Int) : Int :=
  if size ≤ 0 then 100000 else size

/-- What the `select` of lines 314-354 yields, and the one thing that can happen to the
running bulk write between two iterations of the loop. -/
inductive Event where
  /-- Line 315: `namesC` delivers a record. -/
  | record (n : name)
  /-- Line 315: `namesC` is closed. -/
  | closed
  /-- Line 348: `ctx.Done()` is ready and `ctx.Err()` is `err`. -/
  | done (err : GoError)
  /-- Lines 277-293: the running `conn.CopyFrom` returns the error `e` although its window
  is not closed yet (the sink failed in the middle of the window). -/
  | copyFromFailed (e : String)
deriving DecidableEq, Repr

/-- Where the goroutine of lines 299-356 is. -/
inductive Status where
  /-- In the loop, at the select of line 314. -/
  | running
  /-- Returned; the deferred function of lines 305-309 has run. -/
  | returned
  /-- Blocked for ever in a send that has no receiver (line 329 or line 350). -/
  | blocked
deriving DecidableEq, Repr

/-- The variables of `batcher.Copy` and what its caller and the sink have seen so far. -/
structure CopyState where
  status : Status
  /-- The counter `index` of line 311. -/
  index : Nat
  /-- The variable `copyFromErr` of line 267. -/
  copyFromErr : GoError
  /-- The cursor of the bulk write started last (line 275). -/
  copier : copyFromSource
  /-- Whether the `conn.CopyFrom` started last is still running. -/
  live : Bool
  /-- The rows pulled by the bulk writes whose window was closed at line 334, oldest first. -/
  windows : List (List name)
  /-- The rows pulled so far by the bulk write started last. -/
  rows : List name
  /-- What the receive `<-errC` of the caller (line 164) gets from `outErrC`: `none` while
  nothing was sent and the channel is open, `some none` when it is closed without a value
  (the caller reads nil: success), `some (some e)` when `e` was sent. The caller is taken to
  be receiving, so a send on `outErrC` does not block. -/
  outErrC : Option GoError
deriving DecidableEq, Repr

/-- The rows presented to every `copyFrom` call started so far, in the order of the calls. -/
def CopyState.calls (s : CopyState) : List (List name) :=
  s.windows ++ [s.rows]

/-- Lines 289-293: `if err != nil { copyFromErr = err }`. -/
def setCopyFromErr (copyFromErr : GoError) (err : GoError) : GoError :=
  if err ≠ none then err else copyFromErr

/-- The result of `conn.CopyFrom` (pgx) on a cursor it pulled until `Next` returned false:
the error of the cursor when it has one, else the result of the sink itself. -/
def CopyFrom (result : GoError) (c : copyFromSource) : GoError :=
  if c.Err ≠ none then c.Err else result

/-- The receive `<-cpOutErrorC` of line 337. The goroutine of `copyFrom` never sends on
`cpOutErrorC`; it closes it when it ends (line 273), after lines 289-293. The receive
therefore waits for the bulk write to return and yields `nil`. -/
def cpOutErrorC : GoError :=
  none

/-- Lines 269-297 and 342-345: fresh channels, a fresh cursor and a new bulk write. -/
def copyFrom (s : CopyState) : CopyState :=
  { s with copier := newCopyFromSource, live := true, rows := [] }

/-- Lines 334-335 and 306-307: `close(batchErrC); close(batchNameC)`. A running bulk write
gets `false` from `Next` (its select receives `nil` from the closed `batchErrC`), returns,
and lines 289-293 store its error. -/
def closeWindow (b : batcher) (s : CopyState) : CopyState :=
  if s.live then
    let c := (s.copier.Next (Delivery.error none)).1
    { s with
      copier := c
      live := false
      copyFromErr := setCopyFromErr s.copyFromErr (CopyFrom (b.conn s.windows.length) c) }
  else s

/-- The deferred function of lines 305-309, run by every `return` of the goroutine. -/
def deferred (b : batcher) (s : CopyState) : CopyState :=
  let s1 := closeWindow b s
  { s1 with
    status := Status.returned
    outErrC := match s1.outErrC with
      | some v => some v
      | none => some none }

/-- One iteration of the loop of lines 313-355, or one failure of the running bulk write.
Each event is taken whole: the read of `copyFromErr` (line 321) and the send of line 329
are not separated by a failure of the bulk write. The branch of lines 338-339 is kept as
written; `cpOutErrorC` never yields an error, so it is never taken. -/
def step (b : batcher) (s : CopyState) (ev : Event) : CopyState :=
  match s.status with
  | Status.returned => s
  | Status.blocked => s
  | Status.running =>
    match ev with
    | Event.closed => deferred b s
    | Event.record n =>
      match s.copyFromErr with
      | some e => deferred b { s with outErrC := some (some e) }
      | none =>
        if !s.live then { s with status := Status.blocked }
        else
          let c := (s.copier.Next (Delivery.name n)).1
          let s1 := { s with copier := c, rows := s.rows ++ [c.current], index := s.index + 1 }
          if s1.index = b.size then
            let s2 := closeWindow b s1
            match cpOutErrorC with
            | some err => deferred b { s2 with outErrC := some (some err) }
            | none => copyFrom { s2 with windows := s2.windows ++ [s2.rows], index := 0 }
          else s1
    | Event.done err =>
      match err with
      | none => s
      | some e =>
        if !s.live then { s with status := Status.blocked }
        else
          let c := (s.copier.Next (Delivery.error (some e))).1
          let s1 := { s with
            copier := c
            live := false
            copyFromErr := setCopyFromErr s.copyFromErr (CopyFrom (b.conn s.windows.length) c) }
          deferred b { s1 with outErrC := some (some e) }
    | Event.copyFromFailed e =>
      if s.live then { s with live := false, copyFromErr := setCopyFromErr s.copyFromErr (some e) }
      else s

/-- Lines 299-311: the state in which the loop is entered, the first bulk write started. -/
def CopyStart : CopyState :=
  copyFrom
    { status := Status.running, index := 0, copyFromErr := none, copier := newCopyFromSource,
      live := false, windows := [], rows := [], outErrC := none }

/-- The run of the goroutine from an arbitrary state. -/
def run (b : batcher) (s : CopyState) (events : List Event) : CopyState :=
  events.foldl (step b) s

/-- Lines 264-359: `batcher.Copy` on the events its loop meets. -/
def batcher.Copy (b : batcher) (events : List Event) : CopyState :=
  run b CopyStart events

/-- A source that delivers `records` and is then closed, with no cancellation and no
failure in the middle of a window. -/
def cleanSource (records : List name) : List Event :=
  records.map Event.record ++ [Event.closed]

/-- The sink that accepts every bulk write. -/
def okConn : Nat → GoError :=
  fun _ => none

/-- A record that is recognised by its key. -/
def nameOf (k : String) : name :=
  { NConst := k, PrimaryName := "", BirthYear := "", DeathYear := "",
    PrimaryProfessions := [], KnownForTitles := [] }

/-- The counter invariant of the loop: `index` is below `size`, it is the number of rows
forwarded into the window being filled, and every closed window holds `size` rows. -/
def CounterInv (b : batcher) (s : CopyState) : Prop :=
  s.index < b.size ∧ s.rows.length = s.index ∧ ∀ w ∈ s.windows, w.length = b.size

/-- A bulk write is running only while the goroutine is in its loop, and its cursor is
then open and holds no error. -/
def LiveInv (s : CopyState) : Prop :=
  s.live = true → s.status = Status.running ∧ s.copier.closed = false ∧ s.copier.err = none

/-- The state of the loop after the records `recs` when nothing has failed: the loop runs,
the bulk write runs on an open cursor, nothing is latched or reported, and the rows pulled
so far are `recs`. -/
def CleanInv (recs : List name) (s : CopyState) : Prop :=
  s.status = Status.running ∧ s.live = true ∧ s.copyFromErr = none ∧ s.outErrC = none ∧
  s.copier.closed = false ∧ s.copier.err = none ∧ s.windows.flatten ++ s.rows = recs

/-! ## The cursor -/

theorem next_closed (c : copyFromSource) (d : Delivery) (h : c.closed = true) :
    c.Next d = (c, false) := by
  simp [copyFromSource.Next, h]

theorem nextAll_closed (ds : List Delivery) (c : copyFromSource) (h : c.closed = true) :
    c.NextAll ds = c := by
  induction ds with
  | nil => rfl
  | cons d ds ih =>
    simp only [copyFromSource.NextAll, List.foldl_cons, next_closed c d h]
    exact ih

theorem nextAll_cons (c : copyFromSource) (d : Delivery) (ds : List Delivery) :
    c.NextAll (d :: ds) = (c.Next d).1.NextAll ds := by
  simp [copyFromSource.NextAll]

theorem received_closed (ds : List Delivery) (c : copyFromSource) (h : c.closed = true) :
    c.received ds = [] := by
  induction ds with
  | nil => rfl
  | cons d ds ih =>
    simp only [copyFromSource.received, h, if_true, next_closed c d h]
    exact ih

/-- An open cursor holds no error: the only assignment to `err` that leaves a non-nil
error (line 231) is followed by `closed = true` (line 235). -/
theorem nextAll_open_err (ds : List Delivery) (c : copyFromSource)
    (h : c.closed = false → c.err = none) :
    (c.NextAll ds).closed = false → (c.NextAll ds).err = none := by
  induction ds generalizing c with
  | nil => exact h
  | cons d ds ih =>
    rw [nextAll_cons]
    apply ih
    cases hc : c.closed with
    | true => simp [next_closed c d hc, hc]
    | false =>
      cases d <;> simp [copyFromSource.Next, hc, h hc]

/-- The error of a cursor after a sequence of calls is the explicit error it received. -/
theorem nextAll_err_iff (ds : List Delivery) (c : copyFromSource)
    (hc : c.closed = false) (he : c.err = none) :
    (c.NextAll ds).err ≠ none ↔ ∃ e, Delivery.error (some e) ∈ c.received ds := by
  induction ds generalizing c with
  | nil => simp [copyFromSource.NextAll, copyFromSource.received, he]
  | cons d ds ih =>
    rw [nextAll_cons]
    cases d with
    | name n =>
      have h1 : (c.Next (Delivery.name n)).1.closed = false := by
        simp [copyFromSource.Next, hc, he]
      have h2 : (c.Next (Delivery.name n)).1.err = none := by
        simp [copyFromSource.Next, hc, he]
      rw [ih _ h1 h2]
      simp [copyFromSource.received, hc]
    | namesClosed =>
      have h1 : (c.Next Delivery.namesClosed).1.closed = true := by
        simp [copyFromSource.Next, hc]
      have h2 : (c.Next Delivery.namesClosed).1.err = none := by
        simp [copyFromSource.Next, hc, he]
      rw [nextAll_closed ds _ h1]
      simp [copyFromSource.received, hc, received_closed ds _ h1, h2]
    | error e =>
      have h1 : (c.Next (Delivery.error e)).1.closed = true := by
        simp [copyFromSource.Next, hc]
      have h2 : (c.Next (Delivery.error e)).1.err = e := by
        simp [copyFromSource.Next, hc]
      rw [nextAll_closed ds _ h1]
      simp [copyFromSource.received, hc, received_closed ds _ h1, h2]
      cases e <;> simp
/-! ## The loop of batcher.Copy -/

/-- The window size that `main` passes to `newBatcher` is positive. -/
theorem parseFlags_pos (size : Int) : 1 ≤ parseFlags size := by
  unfold parseFlags
  split <;> omega

theorem run_nil (b : batcher) (s : CopyState) : run b s [] = s := rfl

theorem run_cons (b : batcher) (s : CopyState) (ev : Event) (evs : List Event) :
    run b s (ev :: evs) = run b (step b s ev) evs := rfl

theorem run_append (b : batcher) (s : CopyState) (xs ys : List Event) :
    run b s (xs ++ ys) = run b (run b s xs) ys := by
  simp [run, List.foldl_append]

theorem step_not_running (b : batcher) (s : CopyState) (ev : Event)
    (h : s.status ≠ Status.running) : step b s ev = s := by
  unfold step
  cases hs : s.status <;> simp_all

theorem run_not_running (b : batcher) (evs : List Event) (s : CopyState)
    (h : s.status ≠ Status.running) : run b s evs = s := by
  induction evs with
  | nil => rfl
  | cons ev evs ih => rw [run_cons, step_not_running b s ev h]; exact ih

theorem step_liveInv (b : batcher) (s : CopyState) (ev : Event) (h : LiveInv s) :
    LiveInv (step b s ev) := by
  unfold LiveInv at *
  unfold step
  cases hs : s.status <;> simp only [] <;> try exact h
  cases ev with
  | closed => simp [deferred, closeWindow]; split <;> simp_all
  | record n =>
    cases hl : s.copyFromErr with
    | some e => simp [deferred, closeWindow]; split <;> simp_all
    | none =>
      cases hv : s.live with
      | false => simp
      | true =>
        have h1 := h hv
        simp [cpOutErrorC, copyFrom, closeWindow, copyFromSource.Next, h1, newCopyFromSource, hs]
        split <;> simp [hv, h1, hs]
  | done err =>
    cases err with
    | none => simpa using h
    | some e =>
      cases hv : s.live with
      | false => simp
      | true => simp [deferred, closeWindow]
  | copyFromFailed e =>
    cases hv : s.live with
    | false => simp [hv]
    | true => simp

theorem step_counterInv (b : batcher) (s : CopyState) (ev : Event) (hb : 1 ≤ b.size)
    (h : CounterInv b s) : CounterInv b (step b s ev) := by
  unfold CounterInv at *
  unfold step
  cases hs : s.status <;> simp only [] <;> try exact h
  cases ev with
  | closed => simp [deferred, closeWindow]; split <;> simp_all
  | record n =>
    cases hl : s.copyFromErr with
    | some e => simp [deferred, closeWindow]; split <;> simp_all
    | none =>
      cases hv : s.live with
      | false => simpa using h
      | true =>
        obtain ⟨h1, h2, h3⟩ := h
        by_cases hx : s.index + 1 = b.size
        · simp [cpOutErrorC, copyFrom, closeWindow, hx]
          refine ⟨by omega, ?_⟩
          intro w hw
          rcases hw with hw | hw
          · exact h3 w hw
          · subst hw; simp; omega
        · simp [hx]
          exact ⟨by omega, h2, h3⟩
  | done err =>
    cases err with
    | none => simpa using h
    | some e =>
      cases hv : s.live with
      | false => simpa using h
      | true => simpa [deferred, closeWindow] using h
  | copyFromFailed e =>
    cases hv : s.live with
    | false => simpa [hv] using h
    | true => simpa using h

/-! ## Windows of equal length -/

theorem flatten_length_eq {α : Type} (S : Nat) (ws : List (List α))
    (h : ∀ w ∈ ws, w.length = S) : ws.flatten.length = ws.length * S := by
  induction ws with
  | nil => simp
  | cons w ws ih =>
    have hw : w.length = S := h w (by simp)
    have ih1 := ih (fun v hv => h v (by simp [hv]))
    simp [ih1, hw, Nat.succ_mul]
    omega

theorem window_getElem {α : Type} (S : Nat) (ws : List (List α)) (tl : List α)
    (h : ∀ w ∈ ws, w.length = S) (k : Nat) (hk : k < ws.length) :
    ws[k]? = some (((ws.flatten ++ tl).drop (k * S)).take S) := by
  induction ws generalizing k with
  | nil => simp at hk
  | cons w ws ih =>
    have hw : w.length = S := h w (by simp)
    cases k with
    | zero =>
      simp only [List.getElem?_cons_zero, Nat.zero_mul, List.drop_zero, List.flatten_cons,
        List.append_assoc]
      rw [← hw, List.take_left]
    | succ k =>
      have hk1 : k < ws.length := by simpa using hk
      have e : (k + 1) * S = w.length + k * S := by rw [hw, Nat.succ_mul]; omega
      simp only [List.getElem?_cons_succ, List.flatten_cons, List.append_assoc, e]
      rw [List.drop_append]
      exact ih (fun v hv => h v (by simp [hv])) k hk1

theorem window_last {α : Type} (S : Nat) (ws : List (List α)) (tl : List α)
    (h : ∀ w ∈ ws, w.length = S) :
    (ws.flatten ++ tl).drop (ws.length * S) = tl := by
  rw [← flatten_length_eq S ws h, List.drop_left]

theorem slice_eq {α : Type} (l : List α) (lo S : Nat) :
    (l.take (min (lo + S) l.length)).drop lo = (l.drop lo).take S := by
  rw [List.take_drop]
  rcases Nat.le_total (lo + S) l.length with h | h
  · rw [Nat.min_eq_left h]
  · rw [Nat.min_eq_right h, List.take_length, List.take_of_length_le h]

/-! ## A run without failure -/

theorem step_record_clean (b : batcher) (s : CopyState) (n : name) (recs : List name)
    (hconn : ∀ k, b.conn k = none) (h : CleanInv recs s) :
    CleanInv (recs ++ [n]) (step b s (Event.record n)) := by
  obtain ⟨h1, h2, h3, h4, h5, h6, h7⟩ := h
  unfold CleanInv
  by_cases hx : s.index + 1 = b.size
  · simp [step, h1, h2, h3, h4, h5, h6, hx, cpOutErrorC, copyFrom, closeWindow,
      copyFromSource.Next, copyFromSource.Err, setCopyFromErr, CopyFrom, hconn, newCopyFromSource,
      ← h7]
  · simp [step, h1, h2, h3, h4, h5, h6, hx, copyFromSource.Next, ← h7]

theorem run_records_clean (b : batcher) (hconn : ∀ k, b.conn k = none) (recs : List name) :
    CleanInv recs (run b CopyStart (recs.map Event.record)) := by
  induction recs using List.reverseRecOn with
  | nil => simp [run, CleanInv, CopyStart, copyFrom, newCopyFromSource]
  | append_singleton recs n ih =>
    rw [List.map_append, run_append]
    simpa [run] using step_record_clean b _ n recs hconn ih

theorem run_counterInv (b : batcher) (hb : 1 ≤ b.size) (evs : List Event) (s : CopyState)
    (h : CounterInv b s) : CounterInv b (run b s evs) := by
  induction evs generalizing s with
  | nil => exact h
  | cons ev evs ih => rw [run_cons]; exact ih _ (step_counterInv b s ev hb h)

theorem run_liveInv (b : batcher) (evs : List Event) (s : CopyState)
    (h : LiveInv s) : LiveInv (run b s evs) := by
  induction evs generalizing s with
  | nil => exact h
  | cons ev evs ih => rw [run_cons]; exact ih _ (step_liveInv b s ev h)

theorem start_counterInv (b : batcher) (hb : 1 ≤ b.size) : CounterInv b CopyStart := by
  simp [CounterInv, CopyStart, copyFrom]; omega

theorem start_liveInv : LiveInv CopyStart := by
  simp [LiveInv, CopyStart, copyFrom, newCopyFromSource]

/-- The state in which `batcher.Copy` ends on a clean source and an accepting sink. -/
theorem copy_clean (b : batcher) (hb : 1 ≤ b.size) (hconn : ∀ k, b.conn k = none)
    (recs : List name) :
    (b.Copy (cleanSource recs)).status = Status.returned ∧
    (b.Copy (cleanSource recs)).outErrC = some none ∧
    (b.Copy (cleanSource recs)).copyFromErr = none ∧
    (b.Copy (cleanSource recs)).windows.flatten ++ (b.Copy (cleanSource recs)).rows = recs ∧
    (b.Copy (cleanSource recs)).rows.length < b.size ∧
    ∀ w ∈ (b.Copy (cleanSource recs)).windows, w.length = b.size := by
  have hc := run_records_clean b hconn recs
  have hi := run_counterInv b hb (recs.map Event.record) CopyStart (start_counterInv b hb)
  obtain ⟨h1, h2, h3, h4, h5, h6, h7⟩ := hc
  obtain ⟨i1, i2, i3⟩ := hi
  simp only [batcher.Copy, cleanSource, run_append, run_cons, run_nil]
  generalize run b CopyStart (recs.map Event.record) = s at *
  simp [step, h1, h2, h3, h4, h5, h6, deferred, closeWindow, copyFromSource.Next,
    copyFromSource.Err, setCopyFromErr, CopyFrom, hconn, h7]
  exact ⟨by omega, i3⟩

/-- Lines 348-353 while the bulk write is still running: in every state `batcher.Copy`
reaches with a `Next` pending on the cursor, a cancellation with cause `e` is received by
that `Next`, which returns false and leaves `Err()` equal to `e`; `batcher.Copy` reports
`e` and returns, and later events change neither the report nor the windows. -/
theorem cancellation_delivered (b : batcher) (events later : List Event) (e : String)
    (hlive : (b.Copy events).live = true) :
    ((b.Copy events).copier.Next (Delivery.error (some e))).2 = false ∧
    (b.Copy (events ++ [Event.done (some e)])).copier
      = ((b.Copy events).copier.Next (Delivery.error (some e))).1 ∧
    (b.Copy (events ++ [Event.done (some e)])).copier.Err = some e ∧
    (b.Copy (events ++ Event.done (some e) :: later)).outErrC = some (some e) ∧
    (b.Copy (events ++ Event.done (some e) :: later)).status = Status.returned ∧
    (b.Copy (events ++ Event.done (some e) :: later)).calls = (b.Copy events).calls := by
  have hi := run_liveInv b events CopyStart start_liveInv
  simp only [batcher.Copy] at hlive ⊢
  simp only [run_append, run_cons, run_nil]
  generalize run b CopyStart events = s at *
  obtain ⟨h1, h2, h3⟩ := hi hlive
  have hstep : (step b s (Event.done (some e))).status = Status.returned ∧
      (step b s (Event.done (some e))).copier = (s.copier.Next (Delivery.error (some e))).1 ∧
      (step b s (Event.done (some e))).outErrC = some (some e) ∧
      (step b s (Event.done (some e))).calls = s.calls := by
    simp [step, h1, hlive, deferred, closeWindow, CopyState.calls]
  obtain ⟨s1, s2, s3, s4⟩ := hstep
  rw [run_not_running b later _ (by rw [s1]; decide)]
  refine ⟨?_, s2, ?_, s3, s1, s4⟩
  · simp [copyFromSource.Next, h2]
  · rw [s2]; simp [copyFromSource.Next, copyFromSource.Err, h2]

/-! ## The claims -/

/-- C1, as stated, fails: on an empty source that ends cleanly `batcher.Copy` has started
one bulk write (with no rows), not `ceil(0/3) = 0`, and on three records with windows of
three it has started two (the second with no rows), not `ceil(3/3) = 1`. -/
theorem C1_counterexample :
    ((newBatcher okConn 3).Copy (cleanSource [])).calls = [[]] ∧
    ((newBatcher okConn 3).Copy (cleanSource [])).calls.length ≠ (0 + 3 - 1) / 3 ∧
    ((newBatcher okConn 3).Copy (cleanSource [nameOf "a", nameOf "b", nameOf "c"])).calls =
      [[nameOf "a", nameOf "b", nameOf "c"], []] ∧
    ((newBatcher okConn 3).Copy
      (cleanSource [nameOf "a", nameOf "b", nameOf "c"])).calls.length ≠ (3 + 3 - 1) / 3 := by
  refine ⟨by rfl, by decide, by rfl, by decide⟩

/-- C1, amended: for N records and a window size S >= 1, on a source that ends cleanly and
a sink that accepts every bulk write, `batcher.Copy` reports success, has started exactly
`N / S + 1` bulk writes (integer division), and the k-th of them was presented with exactly
the records at positions `[k*S, min((k+1)*S, N))`, in arrival order (so the last one got no
record when S divides N). -/
theorem C1_calls (size : Nat) (records : List name) (hs : 1 ≤ size) :
    ((newBatcher okConn size).Copy (cleanSource records)).outErrC = some none ∧
    ((newBatcher okConn size).Copy (cleanSource records)).calls.length
      = records.length / size + 1 ∧
    ∀ k, k < records.length / size + 1 →
      ((newBatcher okConn size).Copy (cleanSource records)).calls[k]?
        = some ((records.take (min ((k + 1) * size) records.length)).drop (k * size)) := by
  obtain ⟨_, h2, _, h4, h5, h6⟩ :=
    copy_clean (newBatcher okConn size) hs (fun _ => rfl) records
  generalize (newBatcher okConn size).Copy (cleanSource records) = s at *
  have hsz : (newBatcher okConn size).size = size := rfl
  rw [hsz] at h5 h6
  have hlen : records.length = s.windows.length * size + s.rows.length := by
    rw [← h4, List.length_append, flatten_length_eq size s.windows h6]
  have hdiv : records.length / size = s.windows.length := by
    rw [hlen, Nat.add_comm, Nat.add_mul_div_right _ _ (by omega), Nat.div_eq_of_lt h5]
    omega
  refine ⟨h2, by simp [CopyState.calls, hdiv], ?_⟩
  intro k hk
  rw [hdiv] at hk
  have e : (k + 1) * size = k * size + size := Nat.succ_mul k size
  rw [e, slice_eq]
  rcases Nat.lt_or_ge k s.windows.length with hlt | hge
  · rw [CopyState.calls, List.getElem?_append_left hlt, ← h4]
    exact window_getElem size s.windows s.rows h6 k hlt
  · have hk2 : k = s.windows.length := by omega
    subst hk2
    rw [CopyState.calls, List.getElem?_append_right (Nat.le_refl _), ← h4,
      window_last size s.windows s.rows h6, List.take_of_length_le (by omega)]
    simp

/-- C1, amended, at 7 records and windows of 3. -/
theorem C1_calls_witness :
    1 ≤ 3 ∧
    ((newBatcher okConn 3).Copy
      (cleanSource ((List.range 7).map (fun i => nameOf (toString i))))).calls.length
      = ((List.range 7).map (fun i => nameOf (toString i))).length / 3 + 1 :=
  ⟨by decide, (C1_calls 3 ((List.range 7).map (fun i => nameOf (toString i))) (by decide)).2.1⟩

/-- C2: for every record sequence and window size S >= 1, on a source that ends cleanly with
an accepting sink and no cancellation, the rows forwarded to the successive cursors,
concatenated in window order, are the source sequence; with 7 records and S = 3 the windows
are `[r0,r1,r2]`, `[r3,r4,r5]`, `[r6]`. -/
theorem C2_concatenation (size : Nat) (records : List name) (hs : 1 ≤ size)
    (r0 r1 r2 r3 r4 r5 r6 : name) :
    ((newBatcher okConn size).Copy (cleanSource records)).calls.flatten = records ∧
    ((newBatcher okConn 3).Copy (cleanSource [r0, r1, r2, r3, r4, r5, r6])).calls
      = [[r0, r1, r2], [r3, r4, r5], [r6]] := by
  obtain ⟨_, _, _, h4, _, _⟩ :=
    copy_clean (newBatcher okConn size) hs (fun _ => rfl) records
  refine ⟨by simpa [CopyState.calls] using h4, ?_⟩
  simp [batcher.Copy, cleanSource, run, step, CopyStart, copyFrom, closeWindow, deferred,
    cpOutErrorC, setCopyFromErr, CopyFrom, copyFromSource.Next, copyFromSource.Err,
    newCopyFromSource, newBatcher, okConn, CopyState.calls]

/-- C2 at two records and windows of one. -/
theorem C2_concatenation_witness :
    1 ≤ 1 ∧
    ((newBatcher okConn 1).Copy (cleanSource [nameOf "a", nameOf "b"])).calls.flatten
      = [nameOf "a", nameOf "b"] :=
  ⟨by decide, (C2_concatenation 1 [nameOf "a", nameOf "b"] (by decide)
    default default default default default default default).1⟩

/-- C3, what the code does: with windows of one record, when the bulk write of window 0
fails with `e` as its window is closed, the receive of line 337 yields nil, so
`batcher.Copy` starts the bulk write of window 1, and when the source then ends it reports
success although `copyFromErr` holds `e`. -/
theorem C3_boundary_failure (e : String) (r : name) :
    ((newBatcher (fun k => if k = 0 then some e else none) 1).Copy
      (cleanSource [r])).copyFromErr = some e ∧
    ((newBatcher (fun k => if k = 0 then some e else none) 1).Copy
      (cleanSource [r])).calls = [[r], []] ∧
    ((newBatcher (fun k => if k = 0 then some e else none) 1).Copy
      (cleanSource [r])).outErrC = some none := by
  refine ⟨by rfl, by rfl, by rfl⟩

/-- C4, what the code does: when the source ends with one record in a window of three and
the bulk write of that window fails with `e`, `batcher.Copy` has already reported success:
line 317 returns without a receive on `cpOutErrorC`. -/
theorem C4_final_window_failure (e : String) (r : name) :
    ((newBatcher (fun _ => some e) 3).Copy (cleanSource [r])).calls = [[r]] ∧
    ((newBatcher (fun _ => some e) 3).Copy (cleanSource [r])).copyFromErr = some e ∧
    ((newBatcher (fun _ => some e) 3).Copy (cleanSource [r])).status = Status.returned ∧
    ((newBatcher (fun _ => some e) 3).Copy (cleanSource [r])).outErrC = some none := by
  refine ⟨by rfl, by rfl, by rfl, by rfl⟩

/-- C5, what the code does: with windows of one record, the bulk write of window 0 fails
with `e1` as its window is closed and lines 289-293 latch `e1`; line 337 reads nil, so a
second bulk write is started, and when that one fails with `e2` the same lines store `e2`
over `e1`: the latch has changed after it held a failure, and `e2`, not the first failure
`e1`, is what the next record makes `batcher.Copy` report. -/
theorem C5_latch_overwritten :
    ((newBatcher (fun k => if k = 0 then some "e1" else none) 1).Copy
      [Event.record (nameOf "a")]).copyFromErr = some "e1" ∧
    ((newBatcher (fun k => if k = 0 then some "e1" else none) 1).Copy
      [Event.record (nameOf "a")]).calls = [[nameOf "a"], []] ∧
    ((newBatcher (fun k => if k = 0 then some "e1" else none) 1).Copy
      [Event.record (nameOf "a"), Event.copyFromFailed "e2"]).copyFromErr = some "e2" ∧
    ((newBatcher (fun k => if k = 0 then some "e1" else none) 1).Copy
      [Event.record (nameOf "a"), Event.copyFromFailed "e2"]).copyFromErr ≠
    ((newBatcher (fun k => if k = 0 then some "e1" else none) 1).Copy
      [Event.record (nameOf "a")]).copyFromErr ∧
    ((newBatcher (fun k => if k = 0 then some "e1" else none) 1).Copy
      [Event.record (nameOf "a"), Event.copyFromFailed "e2",
       Event.record (nameOf "b")]).outErrC = some (some "e2") := by
  refine ⟨by rfl, by rfl, by rfl, by decide, by rfl⟩

/-- C6: on a cursor in the Open state (any cursor reached from `newCopyFromSource` by `Next`
calls that is not closed), `Next` caches a delivered record, returns true and `Values`
returns its six values; on a closed delivery channel (either channel closed, no error) it
returns false and the cursor is Exhausted with `Err()` nil; on an explicit error `e` it
returns false and the cursor is Failed with `Err()` equal to `e`. -/
theorem C6_next (ds : List Delivery)
    (hopen : (newCopyFromSource.NextAll ds).state = CursorState.Open) :
    (∀ r : name,
      ((newCopyFromSource.NextAll ds).Next (Delivery.name r)).2 = true ∧
      ((newCopyFromSource.NextAll ds).Next (Delivery.name r)).1.current = r ∧
      ((newCopyFromSource.NextAll ds).Next (Delivery.name r)).1.Values = (r.Values, none) ∧
      ((newCopyFromSource.NextAll ds).Next (Delivery.name r)).1.state = CursorState.Open) ∧
    (((newCopyFromSource.NextAll ds).Next Delivery.namesClosed).2 = false ∧
      ((newCopyFromSource.NextAll ds).Next Delivery.namesClosed).1.state
        = CursorState.Exhausted ∧
      ((newCopyFromSource.NextAll ds).Next Delivery.namesClosed).1.Err = none) ∧
    (((newCopyFromSource.NextAll ds).Next (Delivery.error none)).2 = false ∧
      ((newCopyFromSource.NextAll ds).Next (Delivery.error none)).1.state
        = CursorState.Exhausted ∧
      ((newCopyFromSource.NextAll ds).Next (Delivery.error none)).1.Err = none) ∧
    (∀ e : String,
      ((newCopyFromSource.NextAll ds).Next (Delivery.error (some e))).2 = false ∧
      ((newCopyFromSource.NextAll ds).Next (Delivery.error (some e))).1.state
        = CursorState.Failed ∧
      ((newCopyFromSource.NextAll ds).Next (Delivery.error (some e))).1.Err = some e) := by
  have hinv := nextAll_open_err ds newCopyFromSource (fun _ => rfl)
  generalize newCopyFromSource.NextAll ds = c at *
  have hc : c.closed = false := by
    cases h : c.closed with
    | false => rfl
    | true => simp [copyFromSource.state, h] at hopen; split at hopen <;> simp at hopen
  have he := hinv hc
  refine ⟨fun r => ?_, ?_, ?_, fun e => ?_⟩ <;>
    simp [copyFromSource.Next, copyFromSource.state, copyFromSource.Err,
      copyFromSource.Values, hc, he]

/-- C6 at a cursor that has already delivered one record. -/
theorem C6_next_witness :
    (newCopyFromSource.NextAll [Delivery.name (nameOf "a")]).state = CursorState.Open ∧
    ((newCopyFromSource.NextAll [Delivery.name (nameOf "a")]).Next
      (Delivery.error (some "boom"))).1.Err = some "boom" :=
  ⟨by decide,
   ((C6_next [Delivery.name (nameOf "a")] (by decide)).2.2.2 "boom").2.2⟩

/-- C7: after any sequence of `Next` calls on a new cursor, whatever is delivered to them,
`Err()` is non-nil exactly when the cursor is Failed, which is exactly when one of the
calls received an explicit non-nil error; in the Open and Exhausted states `Err()` is
nil. -/
theorem C7_err (ds : List Delivery) :
    ((newCopyFromSource.NextAll ds).Err ≠ none ↔
      (newCopyFromSource.NextAll ds).state = CursorState.Failed) ∧
    ((newCopyFromSource.NextAll ds).Err ≠ none ↔
      ∃ e : String, Delivery.error (some e) ∈ newCopyFromSource.received ds) ∧
    ((newCopyFromSource.NextAll ds).state = CursorState.Open → 
      (newCopyFromSource.NextAll ds).Err = none) ∧
    ((newCopyFromSource.NextAll ds).state = CursorState.Exhausted → 
      (newCopyFromSource.NextAll ds).Err = none) := by
  have hinv := nextAll_open_err ds newCopyFromSource (fun _ => rfl)
  have hiff := nextAll_err_iff ds newCopyFromSource rfl rfl
  refine ⟨?_, hiff, ?_, ?_⟩ <;>
  · generalize newCopyFromSource.NextAll ds = c at *
    cases hc : c.closed <;> cases he : c.err <;>
      simp_all [copyFromSource.state, copyFromSource.Err]

theorem deferred_fields (b : batcher) (s : CopyState) :
    (deferred b s).status = Status.returned ∧ (deferred b s).windows = s.windows ∧
    (deferred b s).rows = s.rows ∧ (deferred b s).index = s.index ∧
    (∀ v, s.outErrC = some v → (deferred b s).outErrC = some v) := by
  unfold deferred closeWindow
  split <;> simp_all

/-- C8: when `copyFromErr` is set as `batcher.Copy` receives a record `r`, the record is
not forwarded (the rows of the current window are unchanged), the latched failure is the
error reported on `outErrC`, and the goroutine has returned: whatever comes later, no
record is forwarded and no window is opened. -/
theorem C8_latched_abort (b : batcher) (s : CopyState) (r : name) (e : String)
    (later : List Event) (hrun : s.status = Status.running)
    (hlatch : s.copyFromErr = some e) :
    (step b s (Event.record r)).rows = s.rows ∧
    (step b s (Event.record r)).windows = s.windows ∧
    (run b s (Event.record r :: later)).outErrC = some (some e) ∧
    (run b s (Event.record r :: later)).status = Status.returned ∧
    (run b s (Event.record r :: later)).calls = s.calls := by
  have hstep : step b s (Event.record r) = deferred b { s with outErrC := some (some e) } := by
    simp [step, hrun, hlatch]
  obtain ⟨d1, d2, d3, _, d5⟩ := deferred_fields b { s with outErrC := some (some e) }
  have hlater : run b s (Event.record r :: later) = step b s (Event.record r) := by
    rw [run_cons]
    exact run_not_running b later _ (by rw [hstep, d1]; decide)
  rw [hlater, hstep]
  exact ⟨d3, d2, d5 _ rfl, d1, by simp [CopyState.calls, d2, d3]⟩

/-- C8 at the state reached when the first bulk write has failed after one row. -/
theorem C8_latched_abort_witness :
    ((newBatcher okConn 3).Copy
      [Event.record (nameOf "a"), Event.copyFromFailed "boom"]).status = Status.running ∧
    ((newBatcher okConn 3).Copy
      [Event.record (nameOf "a"), Event.copyFromFailed "boom"]).copyFromErr = some "boom" ∧
    (run (newBatcher okConn 3)
      ((newBatcher okConn 3).Copy [Event.record (nameOf "a"), Event.copyFromFailed "boom"])
      (Event.record (nameOf "b") :: [Event.record (nameOf "c"), Event.closed])).outErrC
      = some (some "boom") :=
  ⟨by rfl, by rfl,
   (C8_latched_abort (newBatcher okConn 3)
      ((newBatcher okConn 3).Copy [Event.record (nameOf "a"), Event.copyFromFailed "boom"])
      (nameOf "b") "boom" [Event.record (nameOf "c"), Event.closed] (by rfl) (by rfl)).2.2.1⟩

/-- C9, what the code does: with windows of three, after one record is forwarded and the
bulk write of window 0 has returned an error `x`, the window is still filling (the loop is
at its select with `index = 1`), yet a cancellation with cause `e` leaves `batcher.Copy`
blocked in the send of line 350, which has no receiver: the cursor never gets `e` (its
`Err()` stays nil) and nothing is ever reported on `outErrC`, whatever comes later. The
same happens when the bulk write has returned before any record was forwarded. -/
theorem C9_cancellation_blocked (r : name) (x e : String) :
    ((newBatcher okConn 3).Copy [Event.record r, Event.copyFromFailed x]).status
      = Status.running ∧
    ((newBatcher okConn 3).Copy [Event.record r, Event.copyFromFailed x]).index = 1 ∧
    ((newBatcher okConn 3).Copy [Event.record r, Event.copyFromFailed x]).calls = [[r]] ∧
    ((newBatcher okConn 3).Copy
      [Event.record r, Event.copyFromFailed x, Event.done (some e)]).status
      = Status.blocked ∧
    ((newBatcher okConn 3).Copy
      [Event.record r, Event.copyFromFailed x, Event.done (some e)]).copier.Err = none ∧
    (∀ later : List Event,
      (run (newBatcher okConn 3)
        ((newBatcher okConn 3).Copy
          [Event.record r, Event.copyFromFailed x, Event.done (some e)]) later).outErrC
        = none) ∧
    ((newBatcher okConn 3).Copy [Event.copyFromFailed x, Event.done (some e)]).status
      = Status.blocked ∧
    ((newBatcher okConn 3).Copy [Event.copyFromFailed x, Event.done (some e)]).outErrC
      = none := by
  refine ⟨by rfl, by rfl, by rfl, by rfl, by rfl, fun later => ?_, by rfl, by rfl⟩
  have hb : ((newBatcher okConn 3).Copy
      [Event.record r, Event.copyFromFailed x, Event.done (some e)]).status
      = Status.blocked := by rfl
  rw [run_not_running _ later _ (by rw [hb]; decide)]
  rfl

/-- C10: for every window size S >= 1, every sink and every sequence of events, each time
`batcher.Copy` is at its select the counter `index` is below S and is the number of rows
forwarded into the window being filled, every window closed so far holds S rows, and a
record that is forwarded moves the counter to `index + 1`, or to 0 when that is S. -/
theorem C10_index (b : batcher) (events : List Event) (hs : 1 ≤ b.size) :
    (b.Copy events).index < b.size ∧
    (b.Copy events).index = (b.Copy events).rows.length ∧
    (∀ w ∈ (b.Copy events).windows, w.length = b.size) ∧
    (∀ r : name, (b.Copy events).status = Status.running →
      (b.Copy events).copyFromErr = none → (b.Copy events).live = true →
      (b.Copy (events ++ [Event.record r])).calls.flatten
        = (b.Copy events).calls.flatten ++ [r] ∧
      (b.Copy (events ++ [Event.record r])).index
        = if (b.Copy events).index + 1 = b.size then 0 else (b.Copy events).index + 1) := by
  have hc := run_counterInv b hs events CopyStart (start_counterInv b hs)
  have hi := run_liveInv b events CopyStart start_liveInv
  simp only [batcher.Copy, run_append, run_cons, run_nil]
  generalize run b CopyStart events = s at *
  obtain ⟨c1, c2, c3⟩ := hc
  refine ⟨c1, c2.symm, c3, ?_⟩
  intro r hrun hlatch hlive
  obtain ⟨_, h2, h3⟩ := hi hlive
  by_cases hx : s.index + 1 = b.size
  · simp [step, hrun, hlatch, hlive, hx, cpOutErrorC, copyFrom, closeWindow,
      copyFromSource.Next, h2, h3, CopyState.calls]
  · simp [step, hrun, hlatch, hlive, hx, copyFromSource.Next, h2, h3, CopyState.calls]

/-- C10 at four records and windows of three. -/
theorem C10_index_witness :
    1 ≤ (newBatcher okConn 3).size ∧
    ((newBatcher okConn 3).Copy
      [Event.record default, Event.record default, Event.record default,
       Event.record default]).index < (newBatcher okConn 3).size :=
  ⟨by decide,
   (C10_index (newBatcher okConn 3)
      [Event.record default, Event.record default, Event.record default,
       Event.record default] (by decide)).1⟩

end Part5
